import Mathlib

/-!
Verification of the delivery-route sequencing and live position-tracking
model of the `app-domicilios` repository.

The definitions below are shallow embeddings of the TypeScript sources:
JavaScript numbers are modelled as real numbers, `undefined`/`null` as
`Option`, thrown exceptions as `Except`, and the mutable React/DB state is
threaded explicitly.  Each definition carries a comment pointing at the
source it embeds.
-/

namespace AppDomicilios

open Real

/-! ## Geo math (src/app/dashboard/mis-rutas delivery-route view)

`toRadians`, `getDistance` and `getBearing` embed the arrow functions at
the top of the delivery-route view component.
-/

/-- `const toRadians = (deg) => deg * Math.PI / 180;` -/
noncomputable def toRadians (deg : ℝ) : ℝ := deg * Real.pi / 180

/-- JavaScript's `Math.atan2(y, x)`: the standard two-argument arctangent,
with value in `[-π, π]`. -/
noncomputable def atan2 (y x : ℝ) : ℝ :=
  if 0 < x then Real.arctan (y / x)
  else if x < 0 then
    (if 0 ≤ y then Real.arctan (y / x) + Real.pi else Real.arctan (y / x) - Real.pi)
  else
    (if 0 < y then Real.pi / 2 else if y < 0 then -(Real.pi / 2) else 0)

/-- JavaScript truncation toward zero (the quotient used by the `%` operator). -/
noncomputable def jsTrunc (x : ℝ) : ℤ := if 0 ≤ x then ⌊x⌋ else ⌈x⌉

/-- JavaScript's remainder operator `a % b`: `a - b * trunc(a / b)`. -/
noncomputable def jsMod (a b : ℝ) : ℝ := a - b * (jsTrunc (a / b) : ℝ)

/-- `const NEARBY_DISTANCE_METERS = 300;` -/
def NEARBY_DISTANCE_METERS : ℝ := 300

/-- Haversine distance, embedding `getDistance(lat1, lon1, lat2, lon2)`:
`R = 6371e3`, `a = sin²(Δφ/2) + cos φ1 · cos φ2 · sin²(Δλ/2)`,
`c = 2 · atan2(√a, √(1−a))`, returns `R · c`. -/
noncomputable def getDistance (lat1 lon1 lat2 lon2 : ℝ) : ℝ :=
  6371e3 *
    (2 * atan2
      (Real.sqrt (Real.sin (toRadians (lat2 - lat1) / 2) * Real.sin (toRadians (lat2 - lat1) / 2) +
        Real.cos (toRadians lat1) * Real.cos (toRadians lat2) *
          (Real.sin (toRadians (lon2 - lon1) / 2) * Real.sin (toRadians (lon2 - lon1) / 2))))
      (Real.sqrt (1 - (Real.sin (toRadians (lat2 - lat1) / 2) * Real.sin (toRadians (lat2 - lat1) / 2) +
        Real.cos (toRadians lat1) * Real.cos (toRadians lat2) *
          (Real.sin (toRadians (lon2 - lon1) / 2) * Real.sin (toRadians (lon2 - lon1) / 2))))))

/-- Bearing as the code computes it, embedding `getBearing(lat1, lon1, lat2, lon2)`.
Note the source divides `brng` by `NEARBY_DISTANCE_METERS` (= 300), not by
`Math.PI`, before the `% 360` normalization:
`const a = (brng * 180 / NEARBY_DISTANCE_METERS + 360) % 360;`. -/
noncomputable def getBearing (lat1 lon1 lat2 lon2 : ℝ) : ℝ :=
  jsMod
    (atan2
        (Real.sin (toRadians (lon2 - lon1)) * Real.cos (toRadians lat2))
        (Real.cos (toRadians lat1) * Real.sin (toRadians lat2) -
          Real.sin (toRadians lat1) * Real.cos (toRadians lat2) * Real.cos (toRadians (lon2 - lon1)))
      * 180 / NEARBY_DISTANCE_METERS + 360) 360

/-- Modelled from the spec: the standard initial-bearing formula,
`(atan2(y, x) · 180 / π + 360) % 360`, i.e. `getBearing` with the radians-to-degrees
conversion done by dividing by `π` (what the spec's "standard two-argument-arctangent
bearing formula, normalized into [0, 360)" denotes).  Used only to compare the
source's `getBearing` against the spec. -/
noncomputable def bearingDegreesSpec (lat1 lon1 lat2 lon2 : ℝ) : ℝ :=
  jsMod
    (atan2
        (Real.sin (toRadians (lon2 - lon1)) * Real.cos (toRadians lat2))
        (Real.cos (toRadians lat1) * Real.sin (toRadians lat2) -
          Real.sin (toRadians lat1) * Real.cos (toRadians lat2) * Real.cos (toRadians (lon2 - lon1)))
      * 180 / Real.pi + 360) 360

/-! ### Helper lemmas about the geo math -/

lemma toRadians_sub_neg (a b : ℝ) : toRadians (a - b) = -toRadians (b - a) := by
  unfold toRadians; ring

lemma toRadians_zero : toRadians 0 = 0 := by
  unfold toRadians; ring

lemma atan2_zero_one : atan2 0 1 = 0 := by
  unfold atan2
  rw [if_pos one_pos]
  simp [Real.arctan_zero]

lemma atan2_pos_zero {y : ℝ} (hy : 0 < y) : atan2 y 0 = Real.pi / 2 := by
  unfold atan2
  rw [if_neg (lt_irrefl 0), if_neg (lt_irrefl 0), if_pos hy]

lemma atan2_one_zero : atan2 1 0 = Real.pi / 2 := atan2_pos_zero one_pos

lemma neg_pi_le_atan2 (y x : ℝ) : -Real.pi ≤ atan2 y x := by
  unfold atan2
  have hpi := Real.pi_pos
  have h1 : ∀ z : ℝ, -(Real.pi / 2) < Real.arctan z := Real.neg_pi_div_two_lt_arctan
  have h2 : ∀ z : ℝ, Real.arctan z < Real.pi / 2 := Real.arctan_lt_pi_div_two
  split_ifs with hx hx' hy hy' hy''
  · nlinarith [h1 (y / x)]
  · nlinarith [h1 (y / x)]
  · -- x < 0, y < 0 : arctan (y/x) > 0 since y/x > 0
    have hyx : 0 < y / x := div_pos_iff.mpr (Or.inr ⟨by linarith, hx'⟩)
    have : 0 < Real.arctan (y / x) := by
      rw [← Real.arctan_zero]
      exact Real.arctan_strictMono hyx
    linarith
  · linarith
  · linarith
  · linarith

lemma atan2_le_pi (y x : ℝ) : atan2 y x ≤ Real.pi := by
  unfold atan2
  have hpi := Real.pi_pos
  have h1 : ∀ z : ℝ, -(Real.pi / 2) < Real.arctan z := Real.neg_pi_div_two_lt_arctan
  have h2 : ∀ z : ℝ, Real.arctan z < Real.pi / 2 := Real.arctan_lt_pi_div_two
  split_ifs with hx hx' hy hy' hy''
  · nlinarith [h2 (y / x)]
  · -- x < 0, 0 ≤ y : arctan (y/x) ≤ 0 since y/x ≤ 0
    have hyx : y / x ≤ 0 := div_nonpos_iff.mpr (Or.inl ⟨hy, le_of_lt hx'⟩)
    have : Real.arctan (y / x) ≤ 0 := by
      rw [← Real.arctan_zero]
      exact Real.arctan_strictMono.monotone hyx
    linarith
  · nlinarith [h2 (y / x)]
  · linarith
  · linarith
  · linarith

lemma jsMod_nonneg_of_pos {a b : ℝ} (ha : 0 ≤ a) (hb : 0 < b) : 0 ≤ jsMod a b := by
  unfold jsMod jsTrunc
  have hab : 0 ≤ a / b := div_nonneg ha (le_of_lt hb)
  rw [if_pos hab]
  have h := Int.sub_one_lt_floor (a / b)
  have hfl : (⌊a / b⌋ : ℝ) ≤ a / b := Int.floor_le _
  have : b * (⌊a / b⌋ : ℝ) ≤ b * (a / b) := by
    exact mul_le_mul_of_nonneg_left hfl (le_of_lt hb)
  have hba : b * (a / b) = a := by field_simp
  linarith

lemma jsMod_lt_of_pos {a b : ℝ} (ha : 0 ≤ a) (hb : 0 < b) : jsMod a b < b := by
  unfold jsMod jsTrunc
  have hab : 0 ≤ a / b := div_nonneg ha (le_of_lt hb)
  rw [if_pos hab]
  have hfl : a / b < (⌊a / b⌋ : ℝ) + 1 := Int.lt_floor_add_one _
  have : b * (a / b) < b * ((⌊a / b⌋ : ℝ) + 1) := by
    exact mul_lt_mul_of_pos_left hfl hb
  have hba : b * (a / b) = a := by field_simp
  nlinarith

/-- When `1 ≤ a / b < 2` (and `b > 0`), `jsMod a b = a - b`. -/
lemma jsMod_eq_sub_of_lt_two {a b : ℝ} (hb : 0 < b) (h1 : b ≤ a) (h2 : a < 2 * b) :
    jsMod a b = a - b := by
  unfold jsMod jsTrunc
  have hab : 0 ≤ a / b := div_nonneg (le_trans (le_of_lt hb) h1) (le_of_lt hb)
  rw [if_pos hab]
  have hfl : ⌊a / b⌋ = 1 := by
    rw [Int.floor_eq_iff]
    constructor
    · push_cast
      rw [le_div_iff₀ hb]
      linarith
    · push_cast
      rw [div_lt_iff₀ hb]
      linarith
  rw [hfl]
  push_cast
  ring

/-- The haversine `a`-term of `getDistance` is symmetric in its two points. -/
lemma haversine_term_symm (lat1 lon1 lat2 lon2 : ℝ) :
    Real.sin (toRadians (lat1 - lat2) / 2) * Real.sin (toRadians (lat1 - lat2) / 2) +
      Real.cos (toRadians lat2) * Real.cos (toRadians lat1) *
        (Real.sin (toRadians (lon1 - lon2) / 2) * Real.sin (toRadians (lon1 - lon2) / 2)) =
    Real.sin (toRadians (lat2 - lat1) / 2) * Real.sin (toRadians (lat2 - lat1) / 2) +
      Real.cos (toRadians lat1) * Real.cos (toRadians lat2) *
        (Real.sin (toRadians (lon2 - lon1) / 2) * Real.sin (toRadians (lon2 - lon1) / 2)) := by
  rw [toRadians_sub_neg lat1 lat2, toRadians_sub_neg lon1 lon2, neg_div, Real.sin_neg,
    neg_div, Real.sin_neg]
  ring

/-- `getDistance` is symmetric in its two points. -/
lemma getDistance_comm (lat1 lon1 lat2 lon2 : ℝ) :
    getDistance lat1 lon1 lat2 lon2 = getDistance lat2 lon2 lat1 lon1 := by
  unfold getDistance
  rw [haversine_term_symm lat1 lon1 lat2 lon2]

/-- `getDistance` from a point to itself is zero. -/
lemma getDistance_self (lat lon : ℝ) : getDistance lat lon lat lon = 0 := by
  unfold getDistance
  rw [sub_self, sub_self, toRadians_zero]
  simp [Real.sin_zero, atan2_zero_one]

/-- Any value of the form `(t·180/300 + 360) % 360` with `t ∈ [-π, π]` lies in `[0, 360)`. -/
lemma bearing_jsMod_range {t : ℝ} (h1 : -Real.pi ≤ t) :
    0 ≤ jsMod (t * 180 / NEARBY_DISTANCE_METERS + 360) 360 ∧
      jsMod (t * 180 / NEARBY_DISTANCE_METERS + 360) 360 < 360 := by
  have hpi4 : Real.pi ≤ 4 := Real.pi_le_four
  have hb : (0:ℝ) < 360 := by norm_num
  have ha : 0 ≤ t * 180 / NEARBY_DISTANCE_METERS + 360 := by
    unfold NEARBY_DISTANCE_METERS
    nlinarith
  exact ⟨jsMod_nonneg_of_pos ha hb, jsMod_lt_of_pos ha hb⟩

/-- **C9.** `getDistance` (the haversine distance on a sphere of radius
6,371,000 m) is symmetric — for all coordinate pairs the distance from `a` to `b`
equals the distance from `b` to `a` — and the distance from any coordinate to
itself is 0. -/
theorem getDistance_symm_and_self :
    (∀ lat1 lon1 lat2 lon2 : ℝ,
        getDistance lat1 lon1 lat2 lon2 = getDistance lat2 lon2 lat1 lon1) ∧
    (∀ lat lon : ℝ, getDistance lat lon lat lon = 0) :=
  ⟨getDistance_comm, getDistance_self⟩

/-- **C8.** For every pair of coordinate inputs, the value returned by the
bearing computation `getBearing` lies in the half-open interval `[0, 360)`. -/
theorem getBearing_mem_Ico (lat1 lon1 lat2 lon2 : ℝ) :
    0 ≤ getBearing lat1 lon1 lat2 lon2 ∧ getBearing lat1 lon1 lat2 lon2 < 360 := by
  unfold getBearing
  exact bearing_jsMod_range (neg_pi_le_atan2 _ _)

/-- **C8 witness.** The bearing range theorem instantiated at the concrete
input `(0, 0) → (0, 1)`. -/
theorem getBearing_mem_Ico_witness :
    0 ≤ getBearing 0 0 0 1 ∧ getBearing 0 0 0 1 < 360 :=
  getBearing_mem_Ico 0 0 0 1

/-- **C2.** The code's `getBearing` does NOT implement the standard
two-argument-arctangent bearing formula: at the input `from = (0,0)`,
`to = (0,1)` the code returns `3π/10 ≈ 0.94` degrees (it converts radians to
degrees by dividing by `NEARBY_DISTANCE_METERS = 300` instead of by `π`),
while the standard formula yields `90` degrees. -/
theorem getBearing_diverges_from_spec :
    getBearing 0 0 0 1 = 3 * Real.pi / 10 ∧
    bearingDegreesSpec 0 0 0 1 = 90 ∧
    getBearing 0 0 0 1 ≠ bearingDegreesSpec 0 0 0 1 := by
  have hpi := Real.pi_pos
  have hpi4 : Real.pi ≤ 4 := Real.pi_le_four
  have hrad1 : (0:ℝ) < toRadians 1 := by
    unfold toRadians
    positivity
  have hrad1' : toRadians 1 < Real.pi := by
    unfold toRadians
    nlinarith
  have hsin : 0 < Real.sin (toRadians 1) := Real.sin_pos_of_pos_of_lt_pi hrad1 hrad1'
  have hcode : getBearing 0 0 0 1 = 3 * Real.pi / 10 := by
    unfold getBearing
    norm_num [toRadians_zero, Real.sin_zero, Real.cos_zero]
    rw [atan2_pos_zero hsin]
    unfold NEARBY_DISTANCE_METERS
    rw [show Real.pi / 2 * 180 / 300 + 360 = 3 * Real.pi / 10 + 360 by ring]
    rw [jsMod_eq_sub_of_lt_two (by norm_num) (by nlinarith) (by nlinarith)]
    ring
  have hspec : bearingDegreesSpec 0 0 0 1 = 90 := by
    unfold bearingDegreesSpec
    norm_num [toRadians_zero, Real.sin_zero, Real.cos_zero]
    rw [atan2_pos_zero hsin]
    rw [show Real.pi / 2 * 180 / Real.pi + 360 = 450 by
      field_simp
      ring]
    rw [jsMod_eq_sub_of_lt_two (by norm_num) (by norm_num) (by norm_num)]
    norm_num
  refine ⟨hcode, hspec, ?_⟩
  rw [hcode, hspec]
  nlinarith

/-! ## Polyline decoding (src/components/dashboard/map-component.tsx)

`decodePolyline` embeds the `decodePolyline` utility: the standard 5-bit-group
signed-delta algorithm.  Character codes are `Nat`s (all codes in a valid
encoding are ≥ 63, so the `- 63` offset never underflows), accumulated deltas
are `Int`s, and the final division by `1e5` lands in `ℚ`.  Running past the end
of the input mid-value is modelled as stopping (the JS code would produce `NaN`
garbage there; it never happens on a well-formed encoding).
-/

/-- One run of the inner `do/while` loop:
`b = encoded.charCodeAt(index++) - 63; result |= (b & 0x1f) << shift; shift += 5;`
repeated `while (b >= 0x20)`.  Returns the accumulated value and the rest of the
input. -/
def decodeVarint : List Nat → Nat → Nat → Option (Nat × List Nat)
  | [], _, _ => none
  | c :: rest, shift, result =>
    let b := c - 63
    let result' := result ||| ((b &&& 0x1f) <<< shift)
    if b ≥ 0x20 then decodeVarint rest (shift + 5) result'
    else some (result', rest)

/-- `((result & 1) ? ~(result >> 1) : (result >> 1))` — JS `~x` is `-x - 1`. -/
def zigzagDecode (result : Nat) : Int :=
  if result &&& 1 = 1 then -((result >>> 1 : Nat) : Int) - 1 else ((result >>> 1 : Nat) : Int)

/-- The outer `while (index < len)` loop of `decodePolyline`: decode a lat delta
and a lng delta, accumulate, push `[lat / 1e5, lng / 1e5]`.  `fuel` bounds the
number of iterations (each iteration consumes at least one character, so the
input length is enough fuel). -/
def decodeLoop : Nat → List Nat → Int → Int → List (ℚ × ℚ)
  | 0, _, _, _ => []
  | _ + 1, [], _, _ => []
  | fuel + 1, c :: cs, lat, lng =>
    match decodeVarint (c :: cs) 0 0 with
    | none => []
    | some (r1, rest1) =>
      match decodeVarint rest1 0 0 with
      | none => []
      | some (r2, rest2) =>
        let lat' := lat + zigzagDecode r1
        let lng' := lng + zigzagDecode r2
        ((lat' : ℚ) / 100000, (lng' : ℚ) / 100000) :: decodeLoop fuel rest2 lat' lng'

/-- `const decodePolyline = (encoded: string): L.LatLngExpression[] => ...` -/
def decodePolyline (encoded : String) : List (ℚ × ℚ) :=
  decodeLoop encoded.length (encoded.toList.map Char.toNat) 0 0

/-- The same loop as `decodeLoop` but keeping the raw accumulated integers
(before the `1e5` division).  Used to evaluate `decodeLoop` by kernel reduction. -/
def decodeDeltas : Nat → List Nat → Int → Int → List (Int × Int)
  | 0, _, _, _ => []
  | _ + 1, [], _, _ => []
  | fuel + 1, c :: cs, lat, lng =>
    match decodeVarint (c :: cs) 0 0 with
    | none => []
    | some (r1, rest1) =>
      match decodeVarint rest1 0 0 with
      | none => []
      | some (r2, rest2) =>
        let lat' := lat + zigzagDecode r1
        let lng' := lng + zigzagDecode r2
        (lat', lng') :: decodeDeltas fuel rest2 lat' lng'

lemma decodeLoop_succ_cons (n c : Nat) (cs : List Nat) (lat lng : Int) :
    decodeLoop (n + 1) (c :: cs) lat lng =
      match decodeVarint (c :: cs) 0 0 with
      | none => []
      | some (r1, rest1) =>
        match decodeVarint rest1 0 0 with
        | none => []
        | some (r2, rest2) =>
          (((lat + zigzagDecode r1 : Int) : ℚ) / 100000,
            ((lng + zigzagDecode r2 : Int) : ℚ) / 100000) ::
            decodeLoop n rest2 (lat + zigzagDecode r1) (lng + zigzagDecode r2) := rfl

lemma decodeDeltas_succ_cons (n c : Nat) (cs : List Nat) (lat lng : Int) :
    decodeDeltas (n + 1) (c :: cs) lat lng =
      match decodeVarint (c :: cs) 0 0 with
      | none => []
      | some (r1, rest1) =>
        match decodeVarint rest1 0 0 with
        | none => []
        | some (r2, rest2) =>
          (lat + zigzagDecode r1, lng + zigzagDecode r2) ::
            decodeDeltas n rest2 (lat + zigzagDecode r1) (lng + zigzagDecode r2) := rfl

lemma decodeLoop_eq_map (fuel : Nat) : ∀ (chars : List Nat) (lat lng : Int),
    decodeLoop fuel chars lat lng =
      (decodeDeltas fuel chars lat lng).map
        (fun p => ((p.1 : ℚ) / 100000, (p.2 : ℚ) / 100000)) := by
  induction fuel with
  | zero => intro chars lat lng; rfl
  | succ n ih =>
    intro chars lat lng
    cases chars with
    | nil => rfl
    | cons c cs =>
      rw [decodeLoop_succ_cons, decodeDeltas_succ_cons]
      cases h1 : decodeVarint (c :: cs) 0 0 with
      | none => rfl
      | some v1 =>
        obtain ⟨r1, rest1⟩ := v1
        dsimp only
        cases h2 : decodeVarint rest1 0 0 with
        | none => rfl
        | some v2 =>
          obtain ⟨r2, rest2⟩ := v2
          dsimp only
          simp only [List.map]
          rw [ih]

/-- **C7.** Decoding the polyline string from the spec's round-trip example by
the 5-bit-group signed-delta algorithm reproduces the path
`[(38.5, -120.2), (40.7, -120.95), (43.252, -126.453)]` — exactly, hence in
particular within `1e-5` tolerance per coordinate. -/
theorem decodePolyline_example :
    decodePolyline "_p~iF~ps|U_ulLnnqC_mqNvxq`@" =
      [(38.5, -120.2), (40.7, -120.95), (43.252, -126.453)] ∧
    List.Forall₂
      (fun p q : ℚ × ℚ => |p.1 - q.1| ≤ (1 : ℚ) / 100000 ∧ |p.2 - q.2| ≤ (1 : ℚ) / 100000)
      (decodePolyline "_p~iF~ps|U_ulLnnqC_mqNvxq`@")
      [(38.5, -120.2), (40.7, -120.95), (43.252, -126.453)] := by
  have hcodes : "_p~iF~ps|U_ulLnnqC_mqNvxq`@".toList.map Char.toNat =
      [95, 112, 126, 105, 70, 126, 112, 115, 124, 85, 95, 117, 108, 76, 110, 110,
        113, 67, 95, 109, 113, 78, 118, 120, 113, 96, 64] := by decide
  have hlen : "_p~iF~ps|U_ulLnnqC_mqNvxq`@".length = 27 := by decide
  have hdeltas : decodeDeltas 27
      [95, 112, 126, 105, 70, 126, 112, 115, 124, 85, 95, 117, 108, 76, 110, 110,
        113, 67, 95, 109, 113, 78, 118, 120, 113, 96, 64] 0 0 =
      [(3850000, -12020000), (4070000, -12095000), (4325200, -12645300)] := by decide
  have hmain : decodePolyline "_p~iF~ps|U_ulLnnqC_mqNvxq`@" =
      [(38.5, -120.2), (40.7, -120.95), (43.252, -126.453)] := by
    unfold decodePolyline
    rw [hcodes, hlen, decodeLoop_eq_map, hdeltas]
    simp only [List.map]
    norm_num
  refine ⟨hmain, ?_⟩
  rw [hmain]
  refine List.Forall₂.cons (by norm_num) (List.Forall₂.cons (by norm_num)
    (List.Forall₂.cons (by norm_num) List.Forall₂.nil))

/-! ## Orders and the delivery-route view (src/app/dashboard/mis-rutas)

`Order` keeps the fields of the `Order` type that the delivery-route view
reads: the id and the delivery location's coordinates.  A JS coordinate that
is `undefined`/`null` is `none`; the truthiness test `order.deliveryLocation.lat`
is `jsTruthy` (false for `none` and for `some 0` — `0` is falsy in JS).
-/

structure DeliveryLocation where
  lat : Option ℝ
  lng : Option ℝ

structure Order where
  id : String
  deliveryLocation : DeliveryLocation

/-- JavaScript truthiness of an optional number (`undefined`, `null` and `0`
are falsy; `NaN` has no counterpart in the `ℝ` model). -/
def jsTruthy : Option ℝ → Prop
  | none => False
  | some x => x ≠ 0

/-! ### Position Tracker

`track` embeds the `watchPosition` callback of `DeliveryRouteView`: per fix,
`bearing = 0` if there is no previous fix, else
`getBearing(lastPosition, current)`; it emits `{lat, lng, bearing}` (the
`updateUserLocation` call) and overwrites `lastPosition.current` with the
current fix.  The lazy fix stream is modelled as a list of `(lat, lng)` pairs
processed in order; the emitted events are returned as a list.
-/

noncomputable def track : Option (ℝ × ℝ) → List (ℝ × ℝ) → List (ℝ × ℝ × ℝ)
  | _, [] => []
  | lastPosition, f :: rest =>
    let bearing : ℝ :=
      match lastPosition with
      | some p => getBearing p.1 p.2 f.1 f.2
      | none => 0
    (f.1, f.2, bearing) :: track (some f) rest

lemma track_length : ∀ (lastPosition : Option (ℝ × ℝ)) (fixes : List (ℝ × ℝ)),
    (track lastPosition fixes).length = fixes.length
  | _, [] => rfl
  | lastPosition, f :: rest => by
    have hstep : track lastPosition (f :: rest) =
        (f.1, f.2,
          match lastPosition with
          | some p => getBearing p.1 p.2 f.1 f.2
          | none => 0) :: track (some f) rest := rfl
    rw [hstep, List.length_cons, track_length (some f) rest, List.length_cons]

lemma track_getD_succ (d : ℝ × ℝ × ℝ) (dp : ℝ × ℝ) :
    ∀ (fixes : List (ℝ × ℝ)) (lastPosition : Option (ℝ × ℝ)) (i : ℕ),
      i + 1 < fixes.length →
      (track lastPosition fixes).getD (i + 1) d =
        ((fixes.getD (i + 1) dp).1, (fixes.getD (i + 1) dp).2,
          getBearing (fixes.getD i dp).1 (fixes.getD i dp).2
            (fixes.getD (i + 1) dp).1 (fixes.getD (i + 1) dp).2)
  | [], _, i, h => by simp at h
  | f :: rest, lastPosition, 0, h => by
    match rest, h with
    | g :: rest', _ =>
      rfl
  | f :: rest, lastPosition, i + 1, h => by
    have h' : i + 1 < rest.length := by
      simpa using h
    show (track (some f) rest).getD (i + 1) d = _
    rw [track_getD_succ d dp rest (some f) i h']
    rfl

/-- **C5.** For every sequence of `N` raw GPS fixes delivered to the tracker,
exactly `N` location-update events are emitted; the first has bearing 0, and
each subsequent event's bearing is computed (by `getBearing`) from the
immediately preceding fix and the current one only. -/
theorem track_emits_all_fixes (fixes : List (ℝ × ℝ)) :
    (track none fixes).length = fixes.length ∧
    (fixes ≠ [] → ((track none fixes).getD 0 (0, 0, 0)).2.2 = 0) ∧
    (∀ i : ℕ, i + 1 < fixes.length →
      ((track none fixes).getD (i + 1) (0, 0, 0)).2.2 =
        getBearing (fixes.getD i (0, 0)).1 (fixes.getD i (0, 0)).2
          (fixes.getD (i + 1) (0, 0)).1 (fixes.getD (i + 1) (0, 0)).2) := by
  refine ⟨track_length none fixes, ?_, ?_⟩
  · intro hne
    match fixes, hne with
    | f :: rest, _ => rfl
  · intro i h
    rw [track_getD_succ (0, 0, 0) (0, 0) fixes none i h]

/-- **C5 witness.** The tracker theorem instantiated on the concrete two-fix
stream `[(1, 2), (3, 4)]`: two events, first bearing 0, second bearing
`getBearing 1 2 3 4`. -/
theorem track_emits_all_fixes_witness :
    (track none [((1 : ℝ), (2 : ℝ)), (3, 4)]).length = 2 ∧
    ((track none [((1 : ℝ), (2 : ℝ)), (3, 4)]).getD 0 (0, 0, 0)).2.2 = 0 ∧
    ((track none [((1 : ℝ), (2 : ℝ)), (3, 4)]).getD 1 (0, 0, 0)).2.2 = getBearing 1 2 3 4 := by
  obtain ⟨h1, h2, h3⟩ := track_emits_all_fixes [((1 : ℝ), (2 : ℝ)), (3, 4)]
  refine ⟨h1, h2 (by simp), ?_⟩
  have := h3 0 (by norm_num)
  simpa using this

/-! ### Proximity Notifier

`notifyStep` embeds the `orders.forEach` body of the `watchPosition` callback:
for each order whose `deliveryLocation.lat` and `.lng` are truthy and whose id
is not in `notifiedOrderIds`, compute `getDistance` from the current position;
if it is `≤ NEARBY_DISTANCE_METERS`, send the nearby notification (the order id
is emitted) and add the id to `notifiedOrderIds`.  The guard is the source's
nested `if`s flattened into one conjunction.  `runNotifier` chains the
callbacks over a list of positions, threading the `notifiedOrderIds` set
(modelled as a list; within one callback all checks read the set as it was at
the start of the callback, exactly as the React closure does).
-/

open Classical in
noncomputable def notifyStep (latitude longitude : ℝ) (notified : List String) :
    List Order → List String
  | [] => []
  | o :: rest =>
    if jsTruthy o.deliveryLocation.lat ∧ jsTruthy o.deliveryLocation.lng ∧
        o.id ∉ notified ∧
        getDistance latitude longitude (o.deliveryLocation.lat.getD 0)
          (o.deliveryLocation.lng.getD 0) ≤ NEARBY_DISTANCE_METERS then
      o.id :: notifyStep latitude longitude notified rest
    else
      notifyStep latitude longitude notified rest

noncomputable def runNotifier (orders : List Order) :
    List String → List (ℝ × ℝ) → List (List String)
  | _, [] => []
  | notified, p :: ps =>
    notifyStep p.1 p.2 notified orders ::
      runNotifier orders (notified ++ notifyStep p.1 p.2 notified orders) ps

open Classical in
lemma notifyStep_cons (latitude longitude : ℝ) (notified : List String) (o : Order)
    (rest : List Order) :
    notifyStep latitude longitude notified (o :: rest) =
      if jsTruthy o.deliveryLocation.lat ∧ jsTruthy o.deliveryLocation.lng ∧
          o.id ∉ notified ∧
          getDistance latitude longitude (o.deliveryLocation.lat.getD 0)
            (o.deliveryLocation.lng.getD 0) ≤ NEARBY_DISTANCE_METERS then
        o.id :: notifyStep latitude longitude notified rest
      else
        notifyStep latitude longitude notified rest := rfl

lemma runNotifier_cons (orders : List Order) (notified : List String) (p : ℝ × ℝ)
    (ps : List (ℝ × ℝ)) :
    runNotifier orders notified (p :: ps) =
      notifyStep p.1 p.2 notified orders ::
        runNotifier orders (notified ++ notifyStep p.1 p.2 notified orders) ps := rfl

/-- Once a (single assigned) stop's id is in the notified set, every further
position update emits nothing for it.  (The guard reads
`!notifiedOrderIds.has(order.id)` and the set only grows.) -/
lemma runNotifier_single_notified (s : Order) :
    ∀ (ps : List (ℝ × ℝ)) (notified : List String), s.id ∈ notified →
      runNotifier [s] notified ps = List.replicate ps.length []
  | [], _, _ => rfl
  | p :: ps, notified, h => by
    have hstep : notifyStep p.1 p.2 notified [s] = [] := by
      rw [notifyStep_cons, if_neg]
      · rfl
      · intro hP
        exact hP.2.2.1 h
    rw [runNotifier_cons, hstep, List.append_nil,
      runNotifier_single_notified s ps notified h, List.length_cons,
      List.replicate_succ]

/-- **C4.** For an agent with one assigned stop with truthy (present, nonzero)
coordinates and not yet notified, a position farther than the 300 m threshold
fires nothing, the next position within the threshold fires exactly one
notification, a further in-range position fires nothing, and — once the stop is
marked notified — every later update (any positions whatsoever, including
re-entering the radius) fires nothing for it. -/
theorem proximity_notifies_exactly_once (s : Order) (slat slng : ℝ)
    (hlat : s.deliveryLocation.lat = some slat) (hlng : s.deliveryLocation.lng = some slng)
    (hlat0 : slat ≠ 0) (hlng0 : slng ≠ 0)
    (p1 p2 p3 : ℝ × ℝ) (rest : List (ℝ × ℝ))
    (h1 : NEARBY_DISTANCE_METERS < getDistance p1.1 p1.2 slat slng)
    (h2 : getDistance p2.1 p2.2 slat slng ≤ NEARBY_DISTANCE_METERS)
    (h3 : getDistance p3.1 p3.2 slat slng ≤ NEARBY_DISTANCE_METERS) :
    runNotifier [s] [] (p1 :: p2 :: p3 :: rest) =
      [] :: [s.id] :: [] :: List.replicate rest.length [] := by
  have htruthy_lat : jsTruthy s.deliveryLocation.lat := by
    rw [hlat]
    exact hlat0
  have htruthy_lng : jsTruthy s.deliveryLocation.lng := by
    rw [hlng]
    exact hlng0
  have hget_lat : s.deliveryLocation.lat.getD 0 = slat := by rw [hlat]; rfl
  have hget_lng : s.deliveryLocation.lng.getD 0 = slng := by rw [hlng]; rfl
  have hstep1 : notifyStep p1.1 p1.2 [] [s] = [] := by
    rw [notifyStep_cons, if_neg]
    · rfl
    · intro hP
      rw [hget_lat, hget_lng] at hP
      exact absurd hP.2.2.2 (not_le.mpr h1)
  have hstep2 : notifyStep p2.1 p2.2 [] [s] = [s.id] := by
    rw [notifyStep_cons, if_pos]
    · rfl
    · refine ⟨htruthy_lat, htruthy_lng, List.not_mem_nil s.id, ?_⟩
      rw [hget_lat, hget_lng]
      exact h2
  have hmem : s.id ∈ ([] : List String) ++ [s.id] := by simp
  rw [runNotifier_cons, hstep1, List.append_nil, runNotifier_cons, hstep2,
    runNotifier_single_notified s (p3 :: rest) _ hmem, List.length_cons,
    List.replicate_succ]

/-- **C4 witness.** The one-shot notification behavior at a concrete stop
`(90, 90)` and the concrete position sequence `(-90, 90)` (about 20,015 km away,
certainly > 300 m), `(90, 90)` (distance 0), `(90, 90)` again. -/
theorem proximity_notifies_exactly_once_witness :
    runNotifier [⟨"s1", ⟨some 90, some 90⟩⟩] []
        [((-90 : ℝ), (90 : ℝ)), (90, 90), (90, 90)] = [[], ["s1"], []] := by
  have e1 : toRadians ((90 : ℝ) - -90) / 2 = Real.pi / 2 := by
    unfold toRadians
    ring
  have e2 : toRadians ((-90 : ℝ)) = -(Real.pi / 2) := by
    unfold toRadians
    ring
  have e3 : toRadians ((90 : ℝ) - 90) / 2 = 0 := by
    unfold toRadians
    ring
  have hd1 : getDistance (-90) 90 90 90 = 6371e3 * Real.pi := by
    unfold getDistance
    rw [e1, e2, e3, Real.sin_pi_div_two, Real.sin_zero, Real.cos_neg, Real.cos_pi_div_two]
    norm_num [Real.sqrt_one, Real.sqrt_zero, atan2_one_zero]
    ring
  have h1 : NEARBY_DISTANCE_METERS < getDistance (-90) 90 90 90 := by
    rw [hd1]
    unfold NEARBY_DISTANCE_METERS
    nlinarith [Real.pi_gt_three]
  have h23 : getDistance 90 90 90 90 ≤ NEARBY_DISTANCE_METERS := by
    rw [getDistance_self]
    unfold NEARBY_DISTANCE_METERS
    norm_num
  simpa using proximity_notifies_exactly_once ⟨"s1", ⟨some 90, some 90⟩⟩ 90 90 rfl rfl
    (by norm_num) (by norm_num) ((-90 : ℝ), (90 : ℝ)) (90, 90) (90, 90) [] h1 h23 h23

/-! ## User actions (src/actions/user-actions.ts)

`updateUserLocation` embeds the server action of the same name.  The Mongo
collection is modelled as a function from user id to an optional user record;
`findByIdAndUpdate` with `$set` becomes a pointwise functional update.  The
record keeps the fields the action reads and writes: `status`,
`currentLocation` (a GeoJSON point, `coordinates = [lng, lat]`) and `bearing`.
-/

inductive UserStatus
  | available
  | in_route
  | offline
deriving DecidableEq

structure GeoJsonPoint where
  coordinates : List ℝ

structure DbUser where
  status : UserStatus
  currentLocation : Option GeoJsonPoint
  bearing : Option ℝ

def Db : Type := String → Option DbUser

structure LocationUpdate where
  lat : ℝ
  lng : ℝ
  bearing : ℝ

structure ActionResult where
  success : Bool
  message : Option String
deriving Repr

/-- `export async function updateUserLocation(userId, location)`:
look the user up; if absent, fail with "User not found."; if the status is not
`in_route`, fail with "User is not in route."; otherwise `$set` the location
(as `[lng, lat]`), the bearing, and keep the status `in_route`.  Both failure
paths leave the store untouched. -/
def updateUserLocation (db : Db) (userId : String) (location : LocationUpdate) :
    ActionResult × Db :=
  match db userId with
  | none => (⟨false, some "User not found."⟩, db)
  | some user =>
    if user.status ≠ UserStatus.in_route then
      (⟨false, some "User is not in route."⟩, db)
    else
      (⟨true, none⟩, fun uid =>
        if uid = userId then
          some { user with
            currentLocation := some ⟨[location.lng, location.lat]⟩,
            bearing := some location.bearing,
            status := UserStatus.in_route }
        else db uid)

/-- **C6.** A location update is honored only while the agent's status is
`in_route`: with that status the position and bearing are written; with the
agent missing or in any other state, the call returns a failure result and the
store — in particular the stored position and bearing — is unchanged. -/
theorem updateUserLocation_only_in_route (db : Db) (userId : String)
    (location : LocationUpdate) :
    (db userId = none →
      (updateUserLocation db userId location).1.success = false ∧
      (updateUserLocation db userId location).2 = db) ∧
    (∀ user, db userId = some user → user.status ≠ UserStatus.in_route →
      (updateUserLocation db userId location).1.success = false ∧
      (updateUserLocation db userId location).2 = db) ∧
    (∀ user, db userId = some user → user.status = UserStatus.in_route →
      (updateUserLocation db userId location).1.success = true ∧
      (updateUserLocation db userId location).2 userId =
        some { user with
          currentLocation := some ⟨[location.lng, location.lat]⟩,
          bearing := some location.bearing,
          status := UserStatus.in_route }) := by
  refine ⟨?_, ?_, ?_⟩
  · intro h
    unfold updateUserLocation
    rw [h]
    exact ⟨rfl, rfl⟩
  · intro user hu hs
    unfold updateUserLocation
    rw [hu]
    dsimp only
    rw [if_pos hs]
    exact ⟨rfl, rfl⟩
  · intro user hu hs
    unfold updateUserLocation
    rw [hu]
    dsimp only
    rw [if_neg (by simp [hs])]
    refine ⟨rfl, ?_⟩
    simp

/-- **C6 witness.** A concrete store with one agent whose status is `offline`:
the update fails and the store is unchanged. -/
theorem updateUserLocation_only_in_route_witness :
    (updateUserLocation
        (fun uid => if uid = "u1" then some ⟨UserStatus.offline, none, none⟩ else none)
        "u1" ⟨8.25, -73.35, 45⟩).1.success = false ∧
    (updateUserLocation
        (fun uid => if uid = "u1" then some ⟨UserStatus.offline, none, none⟩ else none)
        "u1" ⟨8.25, -73.35, 45⟩).2 =
      (fun uid => if uid = "u1" then some ⟨UserStatus.offline, none, none⟩ else none) :=
  (updateUserLocation_only_in_route
      (fun uid => if uid = "u1" then some ⟨UserStatus.offline, none, none⟩ else none)
      "u1" ⟨8.25, -73.35, 45⟩).2.1
    ⟨UserStatus.offline, none, none⟩ (by norm_num) (by simp)

/-! ## Route planner (src/app/dashboard/rutas/components/route-planner.tsx)

`applyOptimizedRoute` embeds the reorder step of `handleOptimizeRoute`:

```
const reorderedOrders = result.optimizedRoute.map(routeStop => {
  return pendingOrders.find(order => order.id === routeStop.orderId);
}).filter((o): o is Order => !!o);
setPendingOrders(reorderedOrders);
```
-/

/-- One entry of `result.optimizedRoute` (the `OptimizedRouteStopSchema`). -/
structure OptimizedStop where
  orderId : String
  stopNumber : Nat

def applyOptimizedRoute (pendingOrders : List Order) (optimizedRoute : List OptimizedStop) :
    List Order :=
  (optimizedRoute.map fun routeStop =>
    pendingOrders.find? fun order => order.id == routeStop.orderId).filterMap id

def orderA : Order := ⟨"o1", ⟨some 1, some 1⟩⟩

def orderB : Order := ⟨"o2", ⟨some 2, some 2⟩⟩

/-- **C3 counterexample.** With pending pool `[orderA, orderB]` and an
optimization result naming only `"o1"` — an id set that does not match the
pool's — the new ordering is still committed (`[orderA]` replaces the pool):
there is no `InvalidReorder` failure and `orderB` is silently dropped,
contradicting the claim that a mismatching set fails and leaves the pool
unchanged. -/
theorem applyOptimizedRoute_commits_on_mismatch :
    applyOptimizedRoute [orderA, orderB] [⟨"o1", 1⟩] = [orderA] ∧
    applyOptimizedRoute [orderA, orderB] [⟨"o1", 1⟩] ≠ [orderA, orderB] := by
  have h : applyOptimizedRoute [orderA, orderB] [⟨"o1", 1⟩] = [orderA] := rfl
  refine ⟨h, ?_⟩
  rw [h]
  simp

/-- **C3 (amended).** Applying an optimization result always commits: the new
pending pool consists exactly of those current pool stops whose ids appear in
the returned list; result ids absent from the pool are silently skipped and
pool stops absent from the result are silently dropped, with no set-equality
validation and no failure path.  (Stated as a membership characterization,
assuming the pool's ids are distinct.) -/
theorem applyOptimizedRoute_membership (pending : List Order) (route : List OptimizedStop)
    (hnd : (pending.map Order.id).Nodup) (o : Order) :
    o ∈ applyOptimizedRoute pending route ↔
      o ∈ pending ∧ o.id ∈ route.map OptimizedStop.orderId := by
  unfold applyOptimizedRoute
  simp only [List.mem_filterMap, List.mem_map, id_eq]
  constructor
  · rintro ⟨oo, ⟨rs, hrs, hfind⟩, hoo⟩
    subst hoo
    refine ⟨List.mem_of_find?_eq_some hfind, ?_⟩
    have hpred := List.find?_some hfind
    have : o.id = rs.orderId := by
      simpa using hpred
    exact ⟨rs, hrs, this.symm⟩
  · rintro ⟨ho, rs, hrs, hid⟩
    have hsome : (pending.find? fun order => order.id == rs.orderId).isSome :=
      List.find?_isSome.mpr ⟨o, ho, by simp [hid]⟩
    obtain ⟨o', ho'⟩ := Option.isSome_iff_exists.mp hsome
    have ho'mem : o' ∈ pending := List.mem_of_find?_eq_some ho'
    have ho'id : o'.id = rs.orderId := by
      simpa using List.find?_some ho'
    have : o' = o := List.inj_on_of_nodup_map hnd ho'mem ho (by rw [ho'id, hid])
    subst this
    exact ⟨o', ⟨rs, hrs, ho'⟩, rfl⟩

/-- **C3 witness.** The membership characterization at the concrete mismatching
input: `orderB` is not in the committed pool because its id is missing from the
result. -/
theorem applyOptimizedRoute_membership_witness :
    orderB ∉ applyOptimizedRoute [orderA, orderB] [⟨"o1", 1⟩] := by
  intro hmem
  have h := (applyOptimizedRoute_membership [orderA, orderB] [⟨"o1", 1⟩]
    (by decide) orderB).mp hmem
  have h2 := h.2
  simp [orderB] at h2

/-! ## Route optimization flow (src/ai/flows, optimizePharmacyRoute)

`optimizePharmacyRoute` embeds the server flow.  The two network boundaries
are oracles passed as parameters:

* `geocodeAddress : String → Except String GeocodeResult` — the per-address
  geocode call, which either throws (its `Error` message) or resolves to a
  `{lat, lng}` object whose fields may fail the flow's
  `typeof ... === 'number'` check (modelled as `Option ℝ`);
* `api : ApiOutcome` — the outcome of the `fetch` against the optimization
  endpoint for this request (403, other HTTP error, a `routes` payload, an
  `unassigned` payload, or neither);
* `toFixed1 : ℝ → String` — JavaScript's `Number.prototype.toFixed(1)`
  (binary floating-point formatting, treated as an oracle).

`Promise.all` over the per-order geocode promises rejects as soon as any
geocode rejects; `promiseAll` models this, propagating the first error in
list order.
-/

structure GeocodeResult where
  lat : Option ℝ
  lng : Option ℝ

structure Coords where
  lat : ℝ
  lng : ℝ

/-- `OrderStopSchema`: `{ orderId, address }`. -/
structure OrderStop where
  orderId : String
  address : String

structure OptimizeRouteInput where
  startCoords : Coords
  orders : List OrderStop

structure OptimizeRouteOutput where
  optimizedRoute : List OptimizedStop
  estimatedTime : String
  estimatedDistance : String
  encodedPolyline : String

/-- One entry of `data.routes[0].steps`. -/
structure ApiStep where
  type : String
  job_id : Nat

/-- Outcome of the `fetch` against `https://api.openrouteservice.org/optimization`. -/
inductive ApiOutcome
  | forbidden
  | httpError (details : String)
  | routesResult (steps : List ApiStep) (distance : ℝ) (duration : ℝ) (geometry : String)
  | unassignedResult (reason : String)
  | emptyResult

/-- `Promise.all`: resolves to the list of values, or rejects with the first
rejection. -/
def promiseAll {ε α : Type} : List (Except ε α) → Except ε (List α)
  | [] => .ok []
  | .error e :: _ => .error e
  | .ok a :: rest => (promiseAll rest).map (a :: ·)

/-- JavaScript's `Math.round` (`⌊x + 1/2⌋`). -/
noncomputable def mathRound (x : ℝ) : ℤ := ⌊x + 1 / 2⌋

/-- `export async function optimizePharmacyRoute(input)` (API-key check elided:
it depends only on the environment, not on the input). -/
noncomputable def optimizePharmacyRoute
    (geocodeAddress : String → Except String GeocodeResult)
    (toFixed1 : ℝ → String) (api : ApiOutcome)
    (input : OptimizeRouteInput) : Except String OptimizeRouteOutput :=
  if input.orders.length = 0 then
    .ok ⟨[], "0 minutes", "0 km", ""⟩
  else
    match promiseAll (input.orders.map fun order =>
        (geocodeAddress order.address).map fun coords => (order.orderId, coords)) with
    | .error e =>
      -- `Promise.all` rejected; the flow's catch rethrows with a prefix.
      .error ("Route optimization failed: " ++ e)
    | .ok orderCoords =>
      let validOrderCoords := orderCoords.filter fun oc =>
        oc.2.lat.isSome && oc.2.lng.isSome
      if validOrderCoords.length = 0 then
        .error "Route optimization failed: No valid coordinates could be found for any of the orders."
      else
        match api with
        | .forbidden =>
          .error "Route optimization failed: OpenRouteService API error: Forbidden. Check if the API key is valid or has enough credits."
        | .httpError details =>
          .error ("Route optimization failed: OpenRouteService API error: " ++ details)
        | .routesResult steps distance duration geometry =>
          let filteredSteps := steps.filter fun step =>
            step.type == "job" && (validOrderCoords.get? step.job_id).isSome
          let optimizedRouteStops := filteredSteps.enum.map fun p =>
            OptimizedStop.mk
              (((validOrderCoords.get? p.2.job_id).map fun oc => oc.1).getD "")
              (p.1 + 1)
          .ok { optimizedRoute := optimizedRouteStops,
                estimatedTime := toString (mathRound (duration / 60)) ++ " minutes",
                estimatedDistance := toFixed1 (distance / 1000) ++ " km",
                encodedPolyline := geometry }
        | .unassignedResult reason =>
          .error ("Route optimization failed: Could not optimize route. Some orders were unassigned. Reason: " ++ reason)
        | .emptyResult =>
          .error "Route optimization failed: Could not optimize route. The API response did not contain a valid route."

lemma promiseAll_error_of_mem {ε α : Type} :
    ∀ (xs : List (Except ε α)) (e : ε), Except.error e ∈ xs →
      ∃ e', promiseAll xs = Except.error e'
  | [], e, h => absurd h (List.not_mem_nil _)
  | Except.error e'' :: _, _, _ => ⟨e'', rfl⟩
  | Except.ok a :: rest, e, h => by
    have hrest : Except.error e ∈ rest := by
      rcases List.mem_cons.mp h with h' | h'
      · exact absurd h' (by simp)
      · exact h'
    obtain ⟨e', he'⟩ := promiseAll_error_of_mem rest e hrest
    refine ⟨e', ?_⟩
    show (promiseAll rest).map (a :: ·) = _
    rw [he']
    rfl

lemma promiseAll_ok_mem {ε α : Type} :
    ∀ (xs : List (Except ε α)) (ys : List α), promiseAll xs = Except.ok ys →
      ∀ y ∈ ys, Except.ok y ∈ xs
  | [], ys, h, y, hy => by
    simp only [promiseAll, Except.ok.injEq] at h
    subst h
    exact absurd hy (List.not_mem_nil _)
  | Except.error e :: rest, ys, h, y, hy => by
    exact Except.noConfusion h
  | Except.ok a :: rest, ys, h, y, hy => by
    have h' : (promiseAll rest).map (a :: ·) = Except.ok ys := h
    cases hrest : promiseAll rest with
    | error e =>
      rw [hrest] at h'
      simp [Except.map] at h'
    | ok ys' =>
      rw [hrest] at h'
      simp only [Except.map, Except.ok.injEq] at h'
      subst h'
      rcases List.mem_cons.mp hy with h'' | h''
      · subst h''
        exact List.mem_cons_self _ _
      · exact List.mem_cons_of_mem _ (promiseAll_ok_mem rest ys' hrest y h'')

def geoOracleEx : String → Except String GeocodeResult := fun address =>
  if address = "Calle 1" then Except.ok ⟨some 1, some 2⟩
  else Except.error "Geocoding failed: No results found."

def apiOkEx : ApiOutcome := ApiOutcome.routesResult [⟨"job", 0⟩] 1000 600 "xyz"

def toFixed1Ex : ℝ → String := fun _ => "1.0"

/-- **C1 counterexample.** Two stops, the first geocodable, the second not;
the upstream optimizer would succeed.  The whole call still fails with the
geocode error (the rejected geocode promise propagates through `Promise.all`),
so a non-geocodable stop is NOT excluded-and-reported while other stops
proceed. -/
theorem optimize_aborts_when_one_geocode_fails :
    geoOracleEx "Calle 1" = Except.ok ⟨some 1, some 2⟩ ∧
    optimizePharmacyRoute geoOracleEx toFixed1Ex apiOkEx
        ⟨⟨8.25, -73.35⟩, [⟨"ord1", "Calle 1"⟩, ⟨"ord2", "Calle 2"⟩]⟩ =
      Except.error "Route optimization failed: Geocoding failed: No results found." := by
  constructor
  · rfl
  · rfl

/-- **C1 (amended).** A stop whose address cannot be geocoded is not excluded:
any geocode failure aborts the whole optimization call with an error.  Only
geocode results that resolve but lack numeric coordinates are filtered out,
and if every resolved stop is filtered out the call also fails. -/
theorem optimize_geocode_failures
    (geocodeAddress : String → Except String GeocodeResult)
    (toFixed1 : ℝ → String) (api : ApiOutcome) (input : OptimizeRouteInput)
    (hne : input.orders ≠ []) :
    ((∃ o ∈ input.orders, ∃ e, geocodeAddress o.address = Except.error e) →
      ∃ msg, optimizePharmacyRoute geocodeAddress toFixed1 api input = Except.error msg) ∧
    ((∀ o ∈ input.orders, ∀ p, geocodeAddress o.address = Except.ok p →
        ¬(p.lat.isSome ∧ p.lng.isSome)) →
      ∃ msg, optimizePharmacyRoute geocodeAddress toFixed1 api input = Except.error msg) := by
  have hcond : ¬(input.orders.length = 0) := by
    simpa [List.length_eq_zero] using hne
  constructor
  · rintro ⟨o, ho, e, he⟩
    have hmem : Except.error e ∈ input.orders.map fun order =>
        (geocodeAddress order.address).map fun coords => (order.orderId, coords) := by
      refine List.mem_map.mpr ⟨o, ho, ?_⟩
      rw [he]
      rfl
    obtain ⟨e', he'⟩ := promiseAll_error_of_mem _ e hmem
    refine ⟨"Route optimization failed: " ++ e', ?_⟩
    unfold optimizePharmacyRoute
    rw [if_neg hcond, he']
  · intro hall
    cases hp : promiseAll (input.orders.map fun order =>
        (geocodeAddress order.address).map fun coords => (order.orderId, coords)) with
    | error e =>
      refine ⟨"Route optimization failed: " ++ e, ?_⟩
      unfold optimizePharmacyRoute
      rw [if_neg hcond, hp]
    | ok orderCoords =>
      have hfilter : (orderCoords.filter fun oc =>
          oc.2.lat.isSome && oc.2.lng.isSome) = [] := by
        rw [List.filter_eq_nil_iff]
        intro oc hoc
        have hocmem := promiseAll_ok_mem _ _ hp oc hoc
        obtain ⟨o, ho, hfo⟩ := List.mem_map.mp hocmem
        cases hg : geocodeAddress o.address with
        | error e =>
          rw [hg] at hfo
          simp [Except.map] at hfo
        | ok p =>
          rw [hg] at hfo
          simp only [Except.map, Except.ok.injEq] at hfo
          have hnp := hall o ho p hg
          subst hfo
          simpa [-not_and, Decidable.not_and_iff_or_not] using hnp
      refine ⟨"Route optimization failed: No valid coordinates could be found for any of the orders.", ?_⟩
      unfold optimizePharmacyRoute
      rw [if_neg hcond, hp]
      dsimp only
      rw [hfilter]
      rfl

/-- **C1 (amended) witness.** With a single stop whose geocode fails, the call
fails. -/
theorem optimize_geocode_failures_witness :
    ∃ msg, optimizePharmacyRoute (fun _ => Except.error "boom") toFixed1Ex apiOkEx
        ⟨⟨0, 0⟩, [⟨"ord1", "X"⟩]⟩ = Except.error msg :=
  (optimize_geocode_failures (fun _ => Except.error "boom") toFixed1Ex apiOkEx
      ⟨⟨0, 0⟩, [⟨"ord1", "X"⟩]⟩ (by simp)).1
    ⟨⟨"ord1", "X"⟩, by simp, "boom", rfl⟩

/-! ## Coordinate-presence guards

Every consumer guards on the truthiness of the coordinate values:

* `handleOpenGoogleMaps` (both the delivery-route view and the route planner):
  `const validOrders = orders.filter(order => order.deliveryLocation.lat && order.deliveryLocation.lng);`
  and builds the directions URL only from `validOrders`;
* `MapComponent`'s marker loops: `if (order.deliveryLocation.lat && order.deliveryLocation.lng) { ... }`;
* `MapComponent`'s missing-coordinates toast:
  `filter(order => !order.deliveryLocation.lat || !order.deliveryLocation.lng)`.
-/

open Classical in
noncomputable def validOrders (orders : List Order) : List Order :=
  orders.filter fun o =>
    decide (jsTruthy o.deliveryLocation.lat ∧ jsTruthy o.deliveryLocation.lng)

open Classical in
noncomputable def markerOrders (orders : List Order) : List Order :=
  orders.filter fun o =>
    decide (jsTruthy o.deliveryLocation.lat ∧ jsTruthy o.deliveryLocation.lng)

open Classical in
noncomputable def ordersWithoutCoords (allOrdersOnMap : List Order) : List Order :=
  allOrdersOnMap.filter fun o =>
    decide (¬jsTruthy o.deliveryLocation.lat ∨ ¬jsTruthy o.deliveryLocation.lng)

/-- `notifyStep` distributes over list append (the notified set is read, not
written, within one callback). -/
lemma notifyStep_append (latitude longitude : ℝ) (notified : List String) :
    ∀ (l1 l2 : List Order),
      notifyStep latitude longitude notified (l1 ++ l2) =
        notifyStep latitude longitude notified l1 ++ notifyStep latitude longitude notified l2
  | [], l2 => rfl
  | o :: rest, l2 => by
    rw [List.cons_append, notifyStep_cons, notifyStep_cons,
      notifyStep_append latitude longitude notified rest l2]
    by_cases hP : jsTruthy o.deliveryLocation.lat ∧ jsTruthy o.deliveryLocation.lng ∧
        o.id ∉ notified ∧
        getDistance latitude longitude (o.deliveryLocation.lat.getD 0)
          (o.deliveryLocation.lng.getD 0) ≤ NEARBY_DISTANCE_METERS
    · rw [if_pos hP, if_pos hP, List.cons_append]
    · rw [if_neg hP, if_neg hP]

/-- Two stop lists on which every callback step agrees produce identical
notifier runs. -/
lemma runNotifier_congr (l1 l2 : List Order)
    (hstep : ∀ (latitude longitude : ℝ) (notified : List String),
      notifyStep latitude longitude notified l1 = notifyStep latitude longitude notified l2) :
    ∀ (ps : List (ℝ × ℝ)) (notified : List String),
      runNotifier l1 notified ps = runNotifier l2 notified ps
  | [], _ => rfl
  | p :: ps, notified => by
    rw [runNotifier_cons, runNotifier_cons, hstep p.1 p.2 notified,
      runNotifier_congr l1 l2 hstep ps (notified ++ notifyStep p.1 p.2 notified l2)]

/-- **C10.** A stop whose delivery location has `lat = 0` or `lng = 0` is
treated exactly like a stop with missing coordinates, because every guard
tests the truthiness of the coordinate values (`0` is falsy in JS): its
presence guard is false; the proximity notifier behaves, on every single
callback and on every run, as if the stop were not in the list at all
(permanently skipped); the Google-Maps `validOrders` filter and the map-marker
filter exclude it; and the missing-coordinates counter counts it. -/
theorem zero_coord_treated_as_missing (o : Order)
    (h : o.deliveryLocation.lat = some 0 ∨ o.deliveryLocation.lng = some 0) :
    ¬(jsTruthy o.deliveryLocation.lat ∧ jsTruthy o.deliveryLocation.lng) ∧
    (∀ (latitude longitude : ℝ) (notified : List String) (pre post : List Order),
      notifyStep latitude longitude notified (pre ++ o :: post) =
        notifyStep latitude longitude notified (pre ++ post)) ∧
    (∀ (pre post : List Order) (notified : List String) (ps : List (ℝ × ℝ)),
      runNotifier (pre ++ o :: post) notified ps = runNotifier (pre ++ post) notified ps) ∧
    (∀ pre post : List Order, validOrders (pre ++ o :: post) = validOrders (pre ++ post)) ∧
    (∀ pre post : List Order, markerOrders (pre ++ o :: post) = markerOrders (pre ++ post)) ∧
    (∀ pre post : List Order, ordersWithoutCoords (pre ++ o :: post) =
      ordersWithoutCoords pre ++ o :: ordersWithoutCoords post) := by
  have hguard : ¬(jsTruthy o.deliveryLocation.lat ∧ jsTruthy o.deliveryLocation.lng) := by
    rintro ⟨h1, h2⟩
    rcases h with h' | h'
    · rw [h'] at h1
      exact h1 rfl
    · rw [h'] at h2
      exact h2 rfl
  have hstep : ∀ (latitude longitude : ℝ) (notified : List String) (pre post : List Order),
      notifyStep latitude longitude notified (pre ++ o :: post) =
        notifyStep latitude longitude notified (pre ++ post) := by
    intro latitude longitude notified pre post
    rw [notifyStep_append, notifyStep_append, notifyStep_cons,
      if_neg fun hP => hguard ⟨hP.1, hP.2.1⟩]
  refine ⟨hguard, hstep, ?_, ?_, ?_, ?_⟩
  · intro pre post notified ps
    exact runNotifier_congr _ _ (fun la lo n => hstep la lo n pre post) ps notified
  · intro pre post
    unfold validOrders
    rw [List.filter_append, List.filter_append, List.filter_cons_of_neg]
    simpa using hguard
  · intro pre post
    unfold markerOrders
    rw [List.filter_append, List.filter_append, List.filter_cons_of_neg]
    simpa using hguard
  · intro pre post
    unfold ordersWithoutCoords
    rw [List.filter_append, List.filter_cons_of_pos]
    have : ¬jsTruthy o.deliveryLocation.lat ∨ ¬jsTruthy o.deliveryLocation.lng := by
      rcases h with h' | h'
      · left
        rw [h']
        exact fun hz => hz rfl
      · right
        rw [h']
        exact fun hz => hz rfl
    simpa using this

/-- **C10 witness.** A concrete stop with `lat = 0` (and `lng = 5`): excluded
from the Google-Maps orders and the markers, counted as missing, skipped by a
notifier callback. -/
theorem zero_coord_treated_as_missing_witness :
    validOrders [⟨"z", ⟨some 0, some 5⟩⟩] = [] ∧
    markerOrders [⟨"z", ⟨some 0, some 5⟩⟩] = [] ∧
    ordersWithoutCoords [⟨"z", ⟨some 0, some 5⟩⟩] = [⟨"z", ⟨some 0, some 5⟩⟩] ∧
    notifyStep 1 2 [] [⟨"z", ⟨some 0, some 5⟩⟩] = [] := by
  obtain ⟨hg, hstep, hrun, hvalid, hmarker, hmissing⟩ :=
    zero_coord_treated_as_missing ⟨"z", ⟨some 0, some 5⟩⟩ (Or.inl rfl)
  refine ⟨?_, ?_, ?_, ?_⟩
  · simpa using hvalid [] []
  · simpa using hmarker [] []
  · simpa using hmissing [] []
  · simpa using hstep 1 2 [] [] []

end AppDomicilios
